import Mathlib

/-!
Verification of the polygon-to-pixel geocoding and batch-classification
orchestration pipeline of `ai_damage_detector.py` (class `DamageDetector`).

The embedding models the code from the point where polygons have been
parsed from WKT (a `Polygon` below is one entry of `parsed_polygons`,
carrying its uid and its exterior vertex longitudes/latitudes).  Python
floats are modelled as exact rationals; `int()` truncation toward zero is
`pyInt`.  The remote Gemini classifier is an oracle `Nat → BatchResponse`
giving, for each batch index, either the parsed JSON list, a parsed
non-list value, or a raised exception — exactly the three cases
`analyze_tile` distinguishes.  A Python crash (uncaught exception such as
the `ZeroDivisionError` of a zero-extent tile, or `range()`'s
`ValueError` for step 0) is modelled by `analyzeTile` returning `none`.
-/

namespace DDA

/-- One entry of `buildings_with_bbox`: uid plus the clipped integer
pixel bounding box. -/
structure Building where
  uid : String
  x1 : Int
  y1 : Int
  x2 : Int
  y2 : Int
deriving DecidableEq, Inhabited

/-- One record of the remote model's JSON list response, as the code
reads it: `r.get('uid', '')` (a missing uid key behaves as `""`),
`damage`, `confidence`, `description`. -/
structure RespRec where
  uid : String
  damage : String
  confidence : ℚ
  description : String
deriving DecidableEq, Inhabited

/-- One record of the list returned by `analyze_tile`. -/
structure ResultRec where
  uid : String
  damage : String
  confidence : ℚ
  description : String
deriving DecidableEq, Inhabited

/-- A parsed polygon (one entry of `parsed_polygons`): uid plus the
longitudes and latitudes of its exterior-ring vertices. -/
structure Polygon where
  uid : String
  lngs : List ℚ
  lats : List ℚ
deriving DecidableEq, Inhabited

/-- Outcome of one `classify_batch` call as seen by the `try` block of
`analyze_tile`: a parsed JSON list, a parsed non-list value, or a raised
exception with its message. -/
inductive BatchResponse where
  | ok (rs : List RespRec)
  | notList
  | failed (msg : String)
deriving DecidableEq, Inhabited

/-! ### List helpers (Python `min`/`max`, slicing loop) -/

/-- Python `min` over a nonempty list (0 on `[]`, where Python raises). -/
def listMin : List ℚ → ℚ
  | [] => 0
  | x :: xs => xs.foldl min x

/-- Python `max` over a nonempty list (0 on `[]`, where Python raises). -/
def listMax : List ℚ → ℚ
  | [] => 0
  | x :: xs => xs.foldl max x

/-- Fuelled slicing: `chunksAux k fuel xs` cuts `xs` into consecutive
slices of length `k`, mirroring `for batch_idx in range(0, len, k)`. -/
def chunksAux (k : Nat) : Nat → List α → List (List α)
  | 0, _ => []
  | _ + 1, [] => []
  | fuel + 1, x :: xs => ((x :: xs).take k) :: chunksAux k fuel ((x :: xs).drop k)

/-- The batches `buildings_with_bbox[batch_idx:batch_end]` in loop order. -/
def chunks (k : Nat) (xs : List α) : List (List α) :=
  chunksAux k xs.length xs

/-- Map with the (0-based) batch ordinal, mirroring the loop counter. -/
def mapIdx (f : Nat → α → β) : Nat → List α → List β
  | _, [] => []
  | i, x :: xs => f i x :: mapIdx f (i + 1) xs

/-! ### Coordinate projection (STEP 4 and STEP 5 of `analyze_tile`) -/

/-- `px_x = (lng - min_lng) / lng_range * img_w`. -/
def projX (minLng lngRange w lng : ℚ) : ℚ :=
  (lng - minLng) / lngRange * w

/-- `px_y = (max_lat - lat) / lat_range * img_h` (latitude inverted). -/
def projY (maxLat latRange h lat : ℚ) : ℚ :=
  (maxLat - lat) / latRange * h

/-- Python `int()` on an exact rational: truncation toward zero. -/
def pyInt (q : ℚ) : Int :=
  if q < 0 then -⌊-q⌋ else ⌊q⌋

/-- `all_lngs`: every vertex longitude of every parsed polygon. -/
def allLngs (ps : List Polygon) : List ℚ :=
  (ps.map Polygon.lngs).flatten

/-- `all_lats`: every vertex latitude of every parsed polygon. -/
def allLats (ps : List Polygon) : List ℚ :=
  (ps.map Polygon.lats).flatten

/-- The fixed `margin = 0.10` of STEP 4. -/
def margin : ℚ := 1 / 10

def minLng0 (ps : List Polygon) : ℚ := listMin (allLngs ps)
def maxLng0 (ps : List Polygon) : ℚ := listMax (allLngs ps)
def minLat0 (ps : List Polygon) : ℚ := listMin (allLats ps)
def maxLat0 (ps : List Polygon) : ℚ := listMax (allLats ps)

/-- `min_lng -= lng_range * margin` (expanded west bound). -/
def minLngE (ps : List Polygon) : ℚ :=
  minLng0 ps - (maxLng0 ps - minLng0 ps) * margin

/-- `max_lng += lng_range * margin` (expanded east bound). -/
def maxLngE (ps : List Polygon) : ℚ :=
  maxLng0 ps + (maxLng0 ps - minLng0 ps) * margin

/-- `min_lat -= lat_range * margin` (expanded south bound). -/
def minLatE (ps : List Polygon) : ℚ :=
  minLat0 ps - (maxLat0 ps - minLat0 ps) * margin

/-- `max_lat += lat_range * margin` (expanded north bound). -/
def maxLatE (ps : List Polygon) : ℚ :=
  maxLat0 ps + (maxLat0 ps - minLat0 ps) * margin

/-- `lng_range = max_lng - min_lng` recomputed after the margin. -/
def lngRangeE (ps : List Polygon) : ℚ := maxLngE ps - minLngE ps

/-- `lat_range = max_lat - min_lat` recomputed after the margin. -/
def latRangeE (ps : List Polygon) : ℚ := maxLatE ps - minLatE ps

/-- STEP 5 body for one polygon: project every vertex, take the
axis-aligned pixel bounding box, clip to `[0,w] × [0,h]`. -/
def buildingOf (ps : List Polygon) (w h : ℕ) (p : Polygon) : Building :=
  let pxcs := (p.lngs.zip p.lats).map (fun c =>
    (projX (minLngE ps) (lngRangeE ps) (w : ℚ) c.1,
     projY (maxLatE ps) (latRangeE ps) (h : ℚ) c.2))
  let xs := pxcs.map Prod.fst
  let ys := pxcs.map Prod.snd
  { uid := p.uid
    x1 := max 0 (pyInt (listMin xs))
    y1 := max 0 (pyInt (listMin ys))
    x2 := min (w : Int) (pyInt (listMax xs))
    y2 := min (h : Int) (pyInt (listMax ys)) }

/-- The minimum-size filter: kept unless `(x2-x1) < 5 or (y2-y1) < 5`. -/
def keepBuilding (b : Building) : Bool :=
  !(b.x2 - b.x1 < 5 || b.y2 - b.y1 < 5)

/-- `buildings_with_bbox`: the projected buildings passing the filter. -/
def validBuildings (ps : List Polygon) (w h : ℕ) : List Building :=
  (ps.map (buildingOf ps w h)).filter keepBuilding

/-! ### Result reconciliation (STEP 6 of `analyze_tile`)

`result_by_uid = {r.get('uid',''): r for r in batch_results}` keeps, for
each original uid, the LAST record bearing it; the per-building loop then
matches by uid, falls back to `batch_buildings.index(b)` (first
occurrence), and otherwise synthesizes an un-classified record.  The
matched branches mutate the shared response dict (`result['uid'] = uid`),
so when one record is consumed by several buildings its final uid field
is the uid of the LAST consumer, and every output entry referencing the
record shows that final state. -/

/-- Index of the response record `result_by_uid[u]` resolves to: the last
index of `rs` whose original uid is `u`. -/
def lastUidIdx (rs : List RespRec) (u : String) : Option Nat :=
  ((List.range rs.length).filter
    (fun j => decide ((rs.getD j default).uid = u))).getLast?

/-- `batch_buildings.index(b)`: index of the first list member equal to
`b`. -/
def posIdx (bs : List Building) (b : Building) : Nat :=
  List.findIdx (fun b' => decide (b' = b)) bs

/-- Which response record (by index) building `b` consumes:
uid match first, else positional fallback when the index is in range,
else `none` (synthetic record). -/
def refOf (bs : List Building) (rs : List RespRec) (b : Building) : Option Nat :=
  match lastUidIdx rs b.uid with
  | some j => some j
  | none => if posIdx bs b < rs.length then some (posIdx bs b) else none

/-- All buildings (in batch order) that consume response record `j`. -/
def consumersOf (bs : List Building) (rs : List RespRec) (j : Nat) : List Building :=
  bs.filter (fun b => decide (refOf bs rs b = some j))

/-- The uid finally stored in response record `j` after the loop: the uid
of its last consumer (each consumer executes `result['uid'] = uid`). -/
def lastWriterUid (bs : List Building) (rs : List RespRec) (j : Nat) : Option String :=
  (consumersOf bs rs j).getLast?.map Building.uid

/-- The synthetic record for a building the response misses entirely. -/
def synthMiss (b : Building) : ResultRec :=
  { uid := b.uid, damage := "un-classified", confidence := 0,
    description := "AI did not return result for this building" }

/-- The output entry appended for building `b` (observed after the whole
batch loop, hence with the record's final uid field). -/
def reconcileOne (bs : List Building) (rs : List RespRec) (b : Building) : ResultRec :=
  match refOf bs rs b with
  | some j =>
    let r := rs.getD j default
    { uid := (lastWriterUid bs rs j).getD b.uid,
      damage := r.damage, confidence := r.confidence,
      description := r.description }
  | none => synthMiss b

/-- The `isinstance(batch_results, list)` branch: one output entry per
batch building, in batch order. -/
def reconcileBatch (bs : List Building) (rs : List RespRec) : List ResultRec :=
  bs.map (reconcileOne bs rs)

/-- One whole batch of STEP 6: reconcile a list response, or degrade the
batch to per-building un-classified records. -/
def processBatch (bs : List Building) : BatchResponse → List ResultRec
  | .ok rs => reconcileBatch bs rs
  | .notList => bs.map (fun b =>
      { uid := b.uid, damage := "un-classified", confidence := 0,
        description := "Unexpected API response format" })
  | .failed e => bs.map (fun b =>
      { uid := b.uid, damage := "un-classified", confidence := 0,
        description := "Error: " ++ e })

/-- `analyze_tile`, from the parsed polygons on.  `none` models a crash:
a zero-extent tile raises `ZeroDivisionError` inside the projection, and
`batch_size = 0` raises `ValueError` at `range(0, len, 0)`. -/
def analyzeTile (ps : List Polygon) (w h : ℕ) (batchSize : ℕ)
    (oracle : ℕ → BatchResponse) : Option (List ResultRec) :=
  if ps = [] then some []
  else if lngRangeE ps = 0 ∨ latRangeE ps = 0 then none
  else if batchSize = 0 then none
  else some ((mapIdx (fun i bs => processBatch bs (oracle i)) 0
      (chunks batchSize (validBuildings ps w h))).flatten)

/-! ### The retry loop of `_call_gemini` -/

/-- The value `json.loads` produced from one successful Gemini call. -/
inductive GeminiJson where
  | list (rs : List RespRec)
  | other
deriving DecidableEq

/-- Outcome of one attempt (one `generate_content` call plus parse):
success, a 429/RESOURCE_EXHAUSTED rate-limit error, or any other
exception (transport or parse failure). -/
inductive CallOutcome where
  | success (v : GeminiJson)
  | rateLimit
  | genericError (msg : String)

/-- What `_call_gemini` does for its caller: return a parsed value,
raise, or fall off the end of the `for` loop and return `None`. -/
inductive CallResult where
  | ok (v : GeminiJson)
  | raised (msg : String)
  | returnedNone
deriving DecidableEq

/-- The `for attempt in range(retries + 1)` loop from attempt number
`attempt` on; returns the result together with the number of attempts
made from this point.  The rate-limit branch sleeps and `continue`s (it
never raises); the generic branch raises only on the last attempt. -/
def callGeminiFrom (oracle : ℕ → CallOutcome) (retries attempt : ℕ) :
    CallResult × ℕ :=
  if _h : attempt < retries + 1 then
    match oracle attempt with
    | .success v => (.ok v, 1)
    | .rateLimit =>
      let r := callGeminiFrom oracle retries (attempt + 1)
      (r.1, r.2 + 1)
    | .genericError m =>
      if attempt < retries then
        let r := callGeminiFrom oracle retries (attempt + 1)
        (r.1, r.2 + 1)
      else (.raised m, 1)
  else (.returnedNone, 0)
termination_by retries + 1 - attempt
decreasing_by all_goals omega

/-- `_call_gemini`: the loop started at attempt 0, with the attempt
count it performs. -/
def callGemini (oracle : ℕ → CallOutcome) (retries : ℕ) : CallResult × ℕ :=
  callGeminiFrom oracle retries 0

/-! ### Progress reporting (the batch loop's observable events) -/

/-- Observable events of the batch loop: a progress-callback invocation
`progress_callback(batch_num, total_batches)`, and the start of the
`classify_batch` call for a batch. -/
inductive Event where
  | progress (batchNum total : ℕ)
  | classify (batchNum : ℕ)
deriving DecidableEq

/-- `total_batches = (len + batch_size - 1) // batch_size`. -/
def totalBatches (n k : ℕ) : ℕ := (n + k - 1) / k

/-- Events one iteration emits, in code order: the callback (when one is
provided) fires BEFORE `classify_batch` is called. -/
def batchEvents (cb : Bool) (total i : ℕ) : List Event :=
  (if cb then [Event.progress i total] else []) ++ [Event.classify i]

/-- The full event trace of `analyze_tile` (empty when the run crashes
or exits before the loop). -/
def analyzeTileTrace (cb : Bool) (ps : List Polygon) (w h k : ℕ) : List Event :=
  if ps = [] then []
  else if lngRangeE ps = 0 ∨ latRangeE ps = 0 then []
  else if k = 0 then []
  else
    ((List.range (totalBatches (validBuildings ps w h).length k)).map
      (fun j => batchEvents cb (totalBatches (validBuildings ps w h).length k)
        (j + 1))).flatten

/-- `analyze_tile` observed with both its return value and its event
trace; the result value never depends on the callback. -/
def analyzeTileWithProgress (cb : Bool) (ps : List Polygon) (w h k : ℕ)
    (oracle : ℕ → BatchResponse) : Option (List ResultRec) × List Event :=
  (analyzeTile ps w h k oracle, analyzeTileTrace cb ps w h k)

/-! ### The bounds margin as a parameter (STEP 4 with variable margin) -/

/-- The expanded range produced by a margin fraction `m`:
`(max + range*m) - (min - range*m)`. -/
def rangeAfterMargin (minL maxL m : ℚ) : ℚ :=
  (maxL + (maxL - minL) * m) - (minL - (maxL - minL) * m)

/-- A vertex's pixel x coordinate under margin `m`. -/
def pxAfterMargin (minL maxL m w lng : ℚ) : ℚ :=
  projX (minL - (maxL - minL) * m) (rangeAfterMargin minL maxL m) w lng

/-- A vertex's pixel y coordinate under margin `m`. -/
def pyAfterMargin (minL maxL m h lat : ℚ) : ℚ :=
  projY (maxL + (maxL - minL) * m) (rangeAfterMargin minL maxL m) h lat

/-! ### Concrete inputs used by counterexamples and witnesses -/

/-- Two square buildings, extent `lng,lat ∈ [0,10]`; both boxes pass the
minimum-size filter on a 1024×1024 image. -/
def exPolys : List Polygon :=
  [⟨"A", [0, 10, 10, 0], [0, 0, 10, 10]⟩,
   ⟨"B", [2, 8, 8, 2], [2, 2, 8, 8]⟩]

/-- A response with an anonymous first record and a second record carrying
uid `"A"`: building `A` consumes record 1 by uid match, then building `B`
consumes the SAME record positionally (its batch index is 1). -/
def exAliasOracle : ℕ → BatchResponse := fun _ =>
  .ok [⟨"X", "no-damage", 1, "ok"⟩, ⟨"A", "destroyed", 1, "rubble"⟩]

/-- A response whose records carry an out-of-vocabulary damage label and
confidences outside `[0,1]`. -/
def exBadLabelOracle : ℕ → BatchResponse := fun _ =>
  .ok [⟨"A", "major-damage", 2, "big"⟩, ⟨"B", "weird-label", -1, "huh"⟩]

/-- A polygon spanning about 0.01° — far below 5 pixels on this tile. -/
def tinyPoly : Polygon :=
  ⟨"T", [5, 501 / 100, 501 / 100, 5], [5, 5, 501 / 100, 501 / 100]⟩

/-- One large building plus one tiny one. -/
def exTinyPolys : List Polygon :=
  [⟨"A", [0, 10, 10, 0], [0, 0, 10, 10]⟩, tinyPoly]

/-- A well-formed response for the single valid building of
`exTinyPolys`. -/
def exTinyOracle : ℕ → BatchResponse := fun _ =>
  .ok [⟨"A", "no-damage", 1, "intact"⟩]

/-- A single polygon whose vertices all share longitude 5: the tile's
longitude extent is zero. -/
def exZeroRangePolys : List Polygon := [⟨"S", [5, 5, 5], [0, 1, 2]⟩]

/-- The batch `validBuildings exPolys 1024 1024` evaluates to, written
out (used to state reconciler-level facts). -/
def exBatch : List Building :=
  [⟨"A", 85, 85, 938, 938⟩, ⟨"B", 256, 256, 768, 768⟩]

/-- The aliasing response list of `exAliasOracle`. -/
def exAliasResp : List RespRec :=
  [⟨"X", "no-damage", 1, "ok"⟩, ⟨"A", "destroyed", 1, "rubble"⟩]

/-- A single polygon with longitude extent `[0, 2]` and a vertex at the
extent's midpoint (longitude 1). -/
def c8Polys : List Polygon := [⟨"P", [0, 2, 1], [0, 2, 1]⟩]

/-! ### Helper lemmas -/

lemma getLast?_mem_of_eq {α : Type*} {l : List α} {a : α}
    (h : l.getLast? = some a) : a ∈ l := by
  obtain ⟨hne, rfl⟩ :=
    List.mem_getLast?_eq_getLast (Option.mem_def.mpr h)
  exact List.getLast_mem hne

lemma lastUidIdx_lt {rs : List RespRec} {u : String} {j : ℕ}
    (h : lastUidIdx rs u = some j) : j < rs.length :=
  List.mem_range.mp (List.mem_of_mem_filter (getLast?_mem_of_eq h))

lemma refOf_lt {bs : List Building} {rs : List RespRec} {b : Building} {j : ℕ}
    (h : refOf bs rs b = some j) : j < rs.length := by
  unfold refOf at h
  cases hl : lastUidIdx rs b.uid with
  | some j' =>
    rw [hl] at h
    exact Option.some.inj h ▸ lastUidIdx_lt hl
  | none =>
    rw [hl] at h
    by_cases hp : posIdx bs b < rs.length
    · rw [if_pos hp] at h
      exact Option.some.inj h ▸ hp
    · rw [if_neg hp] at h
      exact absurd h (by simp)

lemma getD_mem_of_lt {α : Type*} [Inhabited α] {l : List α} {i : ℕ}
    (h : i < l.length) : l.getD i default ∈ l := by
  rw [List.getD_eq_getElem?_getD, List.getElem?_eq_getElem h]
  exact List.getElem_mem h

lemma lastWriterUid_mem {bs : List Building} {rs : List RespRec} {j : ℕ}
    {u : String} (h : lastWriterUid bs rs j = some u) :
    u ∈ bs.map Building.uid := by
  unfold lastWriterUid at h
  obtain ⟨b', hb', rfl⟩ := Option.map_eq_some'.mp h
  exact List.mem_map_of_mem _
    (List.mem_of_mem_filter (getLast?_mem_of_eq hb'))

lemma reconcileOne_uid_mem {bs : List Building} {rs : List RespRec}
    {b : Building} (hb : b ∈ bs) :
    (reconcileOne bs rs b).uid ∈ bs.map Building.uid := by
  unfold reconcileOne
  cases href : refOf bs rs b with
  | none => exact List.mem_map_of_mem _ hb
  | some j =>
    cases hlw : lastWriterUid bs rs j with
    | none => simpa [hlw] using List.mem_map_of_mem Building.uid hb
    | some u => simpa [hlw] using lastWriterUid_mem hlw

lemma processBatch_uid_mem {bs : List Building} {resp : BatchResponse}
    {r : ResultRec} (hr : r ∈ processBatch bs resp) :
    r.uid ∈ bs.map Building.uid := by
  cases resp with
  | ok rs =>
    obtain ⟨b, hb, rfl⟩ := List.mem_map.mp hr
    exact reconcileOne_uid_mem hb
  | notList =>
    obtain ⟨b, hb, rfl⟩ := List.mem_map.mp hr
    exact List.mem_map_of_mem _ hb
  | failed m =>
    obtain ⟨b, hb, rfl⟩ := List.mem_map.mp hr
    exact List.mem_map_of_mem _ hb

lemma mem_of_mem_chunksAux {α : Type*} {k fuel : ℕ} {xs bs : List α} {a : α}
    (hbs : bs ∈ chunksAux k fuel xs) (ha : a ∈ bs) : a ∈ xs := by
  induction fuel generalizing xs with
  | zero => simp [chunksAux] at hbs
  | succ n ih =>
    cases xs with
    | nil => simp [chunksAux] at hbs
    | cons x xs' =>
      rcases List.mem_cons.mp hbs with h | h
      · subst h; exact List.take_subset _ _ ha
      · exact List.drop_subset _ _ (ih h)

lemma mem_of_mem_chunks {α : Type*} {k : ℕ} {xs bs : List α} {a : α}
    (hbs : bs ∈ chunks k xs) (ha : a ∈ bs) : a ∈ xs :=
  mem_of_mem_chunksAux hbs ha

lemma mem_mapIdx_flatten {α β : Type*} {f : ℕ → α → List β} {l : List α}
    {i : ℕ} {y : β} (hy : y ∈ (mapIdx f i l).flatten) :
    ∃ j x, x ∈ l ∧ y ∈ f j x := by
  induction l generalizing i with
  | nil => simp [mapIdx] at hy
  | cons x xs ih =>
    simp only [mapIdx, List.flatten_cons, List.mem_append] at hy
    rcases hy with h | h
    · exact ⟨i, x, List.mem_cons_self x xs, h⟩
    · obtain ⟨j, x', hx', hyx⟩ := ih h
      exact ⟨j, x', List.mem_cons_of_mem _ hx', hyx⟩

lemma analyzeTile_eq_some {ps : List Polygon} {w h k : ℕ}
    {oracle : ℕ → BatchResponse} {out : List ResultRec}
    (hout : analyzeTile ps w h k oracle = some out) :
    (ps = [] ∧ out = []) ∨
    (ps ≠ [] ∧ ¬(lngRangeE ps = 0 ∨ latRangeE ps = 0) ∧ k ≠ 0 ∧
      out = (mapIdx (fun i bs => processBatch bs (oracle i)) 0
        (chunks k (validBuildings ps w h))).flatten) := by
  unfold analyzeTile at hout
  split at hout
  · exact Or.inl ⟨by assumption, (Option.some.inj hout).symm⟩
  · split at hout
    · cases hout
    · split at hout
      · cases hout
      · exact Or.inr ⟨by assumption, by assumption, by assumption,
          (Option.some.inj hout).symm⟩

lemma analyzeTile_uid_mem {ps : List Polygon} {w h k : ℕ}
    {oracle : ℕ → BatchResponse} {out : List ResultRec}
    (hout : analyzeTile ps w h k oracle = some out)
    {r : ResultRec} (hr : r ∈ out) :
    r.uid ∈ (validBuildings ps w h).map Building.uid := by
  rcases analyzeTile_eq_some hout with ⟨hps, rfl⟩ | ⟨-, -, -, rfl⟩
  · simp at hr
  · obtain ⟨j, bs, hbs, hrb⟩ := mem_mapIdx_flatten hr
    obtain ⟨b, hb, hbu⟩ := List.mem_map.mp (processBatch_uid_mem hrb)
    exact hbu ▸ List.mem_map_of_mem _ (mem_of_mem_chunks hbs hb)

lemma processBatch_fields {bs : List Building} {resp : BatchResponse}
    {r : ResultRec} (hr : r ∈ processBatch bs resp) :
    (r.damage = "un-classified" ∧ r.confidence = 0) ∨
    ∃ rs, resp = BatchResponse.ok rs ∧ ∃ rr ∈ rs,
      r.damage = rr.damage ∧ r.confidence = rr.confidence ∧
      r.description = rr.description := by
  cases resp with
  | ok rs =>
    obtain ⟨b, hb, rfl⟩ := List.mem_map.mp hr
    cases href : refOf bs rs b with
    | none => left; simp [reconcileOne, href, synthMiss]
    | some j =>
      right
      exact ⟨rs, rfl, rs.getD j default, getD_mem_of_lt (refOf_lt href),
        by simp [reconcileOne, href], by simp [reconcileOne, href],
        by simp [reconcileOne, href]⟩
  | notList =>
    obtain ⟨b, hb, rfl⟩ := List.mem_map.mp hr
    left; simp
  | failed m =>
    obtain ⟨b, hb, rfl⟩ := List.mem_map.mp hr
    left; simp

lemma rangeAfterMargin_eq (minL maxL m : ℚ) :
    rangeAfterMargin minL maxL m = (maxL - minL) * (1 + 2 * m) := by
  unfold rangeAfterMargin; ring

lemma pxAfterMargin_sub_half (minL maxL m w lng : ℚ) (hR : minL < maxL)
    (hm : 0 ≤ m) :
    pxAfterMargin minL maxL m w lng - w / 2 =
      w * (2 * lng - (minL + maxL)) / (2 * (maxL - minL) * (1 + 2 * m)) := by
  have h1 : maxL - minL ≠ 0 := sub_ne_zero.mpr (ne_of_lt hR).symm
  have h2 : (0 : ℚ) < 1 + 2 * m := by linarith
  unfold pxAfterMargin projX
  rw [rangeAfterMargin_eq]
  field_simp
  ring

lemma pyAfterMargin_sub_half (minL maxL m h lat : ℚ) (hR : minL < maxL)
    (hm : 0 ≤ m) :
    pyAfterMargin minL maxL m h lat - h / 2 =
      h * ((minL + maxL) - 2 * lat) / (2 * (maxL - minL) * (1 + 2 * m)) := by
  have h1 : maxL - minL ≠ 0 := sub_ne_zero.mpr (ne_of_lt hR).symm
  have h2 : (0 : ℚ) < 1 + 2 * m := by linarith
  unfold pyAfterMargin projY
  rw [rangeAfterMargin_eq]
  field_simp
  ring

lemma abs_div_le_of_le {N d1 d2 : ℚ} (h1 : 0 < d1) (hle : d1 ≤ d2) :
    |N / d2| ≤ |N / d1| := by
  rw [abs_div, abs_div, abs_of_pos h1, abs_of_pos (lt_of_lt_of_le h1 hle)]
  gcongr

lemma abs_div_lt_of_lt {N d1 d2 : ℚ} (hN : N ≠ 0) (h1 : 0 < d1)
    (hlt : d1 < d2) : |N / d2| < |N / d1| := by
  rw [abs_div, abs_div, abs_of_pos h1, abs_of_pos (lt_trans h1 hlt)]
  exact div_lt_div_of_pos_left (abs_pos.mpr hN) h1 hlt

lemma reconcileOne_of_uidMatch {bs : List Building} {rs : List RespRec}
    {b : Building} {j : ℕ} (hj : lastUidIdx rs b.uid = some j) :
    reconcileOne bs rs b =
      ⟨(lastWriterUid bs rs j).getD b.uid, (rs.getD j default).damage,
       (rs.getD j default).confidence, (rs.getD j default).description⟩ := by
  unfold reconcileOne refOf
  rw [hj]

lemma reconcileOne_of_posMatch {bs : List Building} {rs : List RespRec}
    {b : Building} (hn : lastUidIdx rs b.uid = none)
    (hlt : posIdx bs b < rs.length) :
    reconcileOne bs rs b =
      ⟨(lastWriterUid bs rs (posIdx bs b)).getD b.uid,
       (rs.getD (posIdx bs b) default).damage,
       (rs.getD (posIdx bs b) default).confidence,
       (rs.getD (posIdx bs b) default).description⟩ := by
  unfold reconcileOne refOf
  rw [hn, if_pos hlt]

lemma reconcileOne_of_miss {bs : List Building} {rs : List RespRec}
    {b : Building} (hn : lastUidIdx rs b.uid = none)
    (hge : ¬posIdx bs b < rs.length) :
    reconcileOne bs rs b = synthMiss b := by
  unfold reconcileOne refOf
  rw [hn, if_neg hge]

/-! ### Evaluation lemmas for the concrete inputs -/

lemma exBatch_eval : validBuildings exPolys 1024 1024 = exBatch := by
  norm_num [validBuildings, exPolys, exBatch, buildingOf, keepBuilding, pyInt,
    minLngE, maxLngE, minLatE, maxLatE, lngRangeE, latRangeE,
    minLng0, maxLng0, minLat0, maxLat0, allLngs, allLats, margin,
    listMin, listMax, projX, projY, min_def, max_def, List.filter]

lemma lngRangeE_exPolys : lngRangeE exPolys = 12 := by
  norm_num [lngRangeE, minLngE, maxLngE, minLng0, maxLng0, allLngs, margin,
    listMin, listMax, exPolys, min_def, max_def]

lemma latRangeE_exPolys : latRangeE exPolys = 12 := by
  norm_num [latRangeE, minLatE, maxLatE, minLat0, maxLat0, allLats, margin,
    listMin, listMax, exPolys, min_def, max_def]

lemma exAliasRun_eval :
    analyzeTile exPolys 1024 1024 85 exAliasOracle =
      some [⟨"B", "destroyed", 1, "rubble"⟩,
            ⟨"B", "destroyed", 1, "rubble"⟩] := by
  unfold analyzeTile
  rw [if_neg (by simp [exPolys] : ¬(exPolys = [])),
    if_neg (by rw [lngRangeE_exPolys, latRangeE_exPolys]; norm_num),
    if_neg (by norm_num : ¬(85 = 0)), exBatch_eval]
  decide

lemma exBadLabelRun_eval :
    analyzeTile exPolys 1024 1024 85 exBadLabelOracle =
      some [⟨"A", "major-damage", 2, "big"⟩,
            ⟨"B", "weird-label", -1, "huh"⟩] := by
  unfold analyzeTile
  rw [if_neg (by simp [exPolys] : ¬(exPolys = [])),
    if_neg (by rw [lngRangeE_exPolys, latRangeE_exPolys]; norm_num),
    if_neg (by norm_num : ¬(85 = 0)), exBatch_eval]
  decide

lemma exTinyBuilding_eval :
    buildingOf exTinyPolys 1024 1024 tinyPoly = ⟨"T", 512, 511, 512, 512⟩ := by
  norm_num [exTinyPolys, tinyPoly, buildingOf, pyInt,
    minLngE, maxLngE, minLatE, maxLatE, lngRangeE, latRangeE,
    minLng0, maxLng0, minLat0, maxLat0, allLngs, allLats, margin,
    listMin, listMax, projX, projY, min_def, max_def]

lemma exTinyValid_eval :
    validBuildings exTinyPolys 1024 1024 = [⟨"A", 85, 85, 938, 938⟩] := by
  norm_num [validBuildings, exTinyPolys, tinyPoly, buildingOf, keepBuilding,
    pyInt, minLngE, maxLngE, minLatE, maxLatE, lngRangeE, latRangeE,
    minLng0, maxLng0, minLat0, maxLat0, allLngs, allLats, margin,
    listMin, listMax, projX, projY, min_def, max_def, List.filter]

lemma lngRangeE_exTinyPolys : lngRangeE exTinyPolys = 12 := by
  norm_num [lngRangeE, minLngE, maxLngE, minLng0, maxLng0, allLngs, margin,
    listMin, listMax, exTinyPolys, tinyPoly, min_def, max_def]

lemma latRangeE_exTinyPolys : latRangeE exTinyPolys = 12 := by
  norm_num [latRangeE, minLatE, maxLatE, minLat0, maxLat0, allLats, margin,
    listMin, listMax, exTinyPolys, tinyPoly, min_def, max_def]

lemma exTinyRun_eval :
    analyzeTile exTinyPolys 1024 1024 85 exTinyOracle =
      some [⟨"A", "no-damage", 1, "intact"⟩] := by
  unfold analyzeTile
  rw [if_neg (by simp [exTinyPolys] : ¬(exTinyPolys = [])),
    if_neg (by rw [lngRangeE_exTinyPolys, latRangeE_exTinyPolys]; norm_num),
    if_neg (by norm_num : ¬(85 = 0)), exTinyValid_eval]
  decide

lemma lngRangeE_exZeroRange : lngRangeE exZeroRangePolys = 0 := by
  norm_num [lngRangeE, minLngE, maxLngE, minLng0, maxLng0, allLngs, margin,
    listMin, listMax, exZeroRangePolys, min_def, max_def]

lemma exZeroRangeRun_eval :
    analyzeTile exZeroRangePolys 1024 1024 85
      (fun _ => BatchResponse.notList) = none := by
  unfold analyzeTile
  rw [if_neg (by simp [exZeroRangePolys] : ¬(exZeroRangePolys = [])),
    if_pos (Or.inl lngRangeE_exZeroRange)]

lemma exTrace_eval :
    analyzeTileTrace true exPolys 1024 1024 85 =
      [Event.progress 1 1, Event.classify 1] := by
  unfold analyzeTileTrace
  rw [if_neg (by simp [exPolys] : ¬(exPolys = [])),
    if_neg (by rw [lngRangeE_exPolys, latRangeE_exPolys]; norm_num),
    if_neg (by norm_num : ¬(85 = 0)), exBatch_eval]
  decide

/-! ### Claim theorems -/

/-- C1: the claim states that every building whose box passes the
minimum-size filter has its identifier exactly once in the output of
`analyze_tile`, regardless of the content of the remote response.  The
code violates this: on `exPolys` (valid buildings `A` and `B`) with a
response whose record at index 1 carries uid `"A"`, building `A` consumes
that record by uid match and building `B` then consumes the SAME record
by positional fallback; `result['uid'] = uid` mutates the shared record,
so both output entries end with uid `"B"` — `"A"` appears 0 times and
`"B"` twice. -/
theorem c1_aliasing_eval :
    analyzeTile exPolys 1024 1024 85 exAliasOracle =
      some [⟨"B", "destroyed", 1, "rubble"⟩,
            ⟨"B", "destroyed", 1, "rubble"⟩] ∧
    (validBuildings exPolys 1024 1024).map Building.uid = ["A", "B"] ∧
    (([⟨"B", "destroyed", 1, "rubble"⟩,
       ⟨"B", "destroyed", 1, "rubble"⟩] : List ResultRec).map
        ResultRec.uid).count "A" = 0 := by
  refine ⟨exAliasRun_eval, ?_, by decide⟩
  rw [exBatch_eval]; decide

/-- C2 counterexample: the claimed precedence says a positional match may
use "only response records not already consumed by an identifier match".
In `exBatch` against `exAliasResp`, building `B` (index 1) fails the
identifier match while record 1 was already consumed by building `A`'s
identifier match; the claim then requires a synthetic un-classified
record with confidence 0.0 for `B`, but the code hands `B` the consumed
record's classification (`destroyed`, confidence 1). -/
theorem c2_counterexample :
    lastUidIdx exAliasResp "B" = none ∧
    lastUidIdx exAliasResp "A" = some 1 ∧
    posIdx exBatch ⟨"B", 256, 256, 768, 768⟩ = 1 ∧
    refOf exBatch exAliasResp ⟨"A", 85, 85, 938, 938⟩ = some 1 ∧
    (reconcileBatch exBatch exAliasResp).getD 1 default =
      ⟨"B", "destroyed", 1, "rubble"⟩ ∧
    ((reconcileBatch exBatch exAliasResp).getD 1 default).damage ≠
      "un-classified" ∧
    ((reconcileBatch exBatch exAliasResp).getD 1 default).confidence ≠ 0 := by
  decide

/-- C2 amended: the reconciler's actual precedence per building — (1) the
last response record whose original uid equals the building's uid; (2)
otherwise the record at the building's own batch index whenever that
index is within the response list, regardless of whether that record was
already consumed by an identifier match; (3) otherwise a synthetic
un-classified record with confidence 0.0. -/
theorem c2_amended (bs : List Building) (rs : List RespRec) (i : ℕ)
    (hi : i < bs.length) :
    (∀ j, lastUidIdx rs (bs.getD i default).uid = some j →
      ((reconcileBatch bs rs).getD i default).damage =
        (rs.getD j default).damage ∧
      ((reconcileBatch bs rs).getD i default).confidence =
        (rs.getD j default).confidence ∧
      ((reconcileBatch bs rs).getD i default).description =
        (rs.getD j default).description) ∧
    (lastUidIdx rs (bs.getD i default).uid = none →
      posIdx bs (bs.getD i default) < rs.length →
      ((reconcileBatch bs rs).getD i default).damage =
        (rs.getD (posIdx bs (bs.getD i default)) default).damage ∧
      ((reconcileBatch bs rs).getD i default).confidence =
        (rs.getD (posIdx bs (bs.getD i default)) default).confidence ∧
      ((reconcileBatch bs rs).getD i default).description =
        (rs.getD (posIdx bs (bs.getD i default)) default).description) ∧
    (lastUidIdx rs (bs.getD i default).uid = none →
      ¬posIdx bs (bs.getD i default) < rs.length →
      (reconcileBatch bs rs).getD i default =
        synthMiss (bs.getD i default)) := by
  have hgd : (reconcileBatch bs rs).getD i default =
      reconcileOne bs rs (bs.getD i default) := by
    unfold reconcileBatch
    rw [List.getD_eq_getElem?_getD, List.getElem?_map,
      List.getElem?_eq_getElem hi]
    simp [List.getD_eq_getElem?_getD, List.getElem?_eq_getElem hi]
  refine ⟨?_, ?_, ?_⟩
  · intro j hj
    rw [hgd, reconcileOne_of_uidMatch hj]
    exact ⟨rfl, rfl, rfl⟩
  · intro hnone hlt
    rw [hgd, reconcileOne_of_posMatch hnone hlt]
    exact ⟨rfl, rfl, rfl⟩
  · intro hnone hge
    rw [hgd, reconcileOne_of_miss hnone hge]

/-- C2 witness: the amended precedence evaluated for building `B`
(index 1) of the aliasing batch. -/
theorem c2_witness :
    (∀ j, lastUidIdx exAliasResp (exBatch.getD 1 default).uid = some j →
      ((reconcileBatch exBatch exAliasResp).getD 1 default).damage =
        (exAliasResp.getD j default).damage ∧
      ((reconcileBatch exBatch exAliasResp).getD 1 default).confidence =
        (exAliasResp.getD j default).confidence ∧
      ((reconcileBatch exBatch exAliasResp).getD 1 default).description =
        (exAliasResp.getD j default).description) ∧
    (lastUidIdx exAliasResp (exBatch.getD 1 default).uid = none →
      posIdx exBatch (exBatch.getD 1 default) < exAliasResp.length →
      ((reconcileBatch exBatch exAliasResp).getD 1 default).damage =
        (exAliasResp.getD (posIdx exBatch (exBatch.getD 1 default))
          default).damage ∧
      ((reconcileBatch exBatch exAliasResp).getD 1 default).confidence =
        (exAliasResp.getD (posIdx exBatch (exBatch.getD 1 default))
          default).confidence ∧
      ((reconcileBatch exBatch exAliasResp).getD 1 default).description =
        (exAliasResp.getD (posIdx exBatch (exBatch.getD 1 default))
          default).description) ∧
    (lastUidIdx exAliasResp (exBatch.getD 1 default).uid = none →
      ¬posIdx exBatch (exBatch.getD 1 default) < exAliasResp.length →
      (reconcileBatch exBatch exAliasResp).getD 1 default =
        synthMiss (exBatch.getD 1 default)) :=
  c2_amended exBatch exAliasResp 1 (by decide)

/-- C3 counterexample: the claim says every returned record's damage lies
in the fixed vocabulary plus `un-classified` and its confidence in
`[0,1]`, out-of-vocabulary labels being rejected or relabeled.  The code
performs no such validation: a response with label `major-damage`
(confidence 2) and label `weird-label` (confidence −1) passes
through to the output verbatim. -/
theorem c3_counterexample :
    analyzeTile exPolys 1024 1024 85 exBadLabelOracle =
      some [⟨"A", "major-damage", 2, "big"⟩,
            ⟨"B", "weird-label", -1, "huh"⟩] ∧
    "major-damage" ∉
      (["no-damage", "minor-damage", "destroyed", "un-classified"] :
        List String) ∧
    ¬(2 : ℚ) ≤ 1 ∧ ¬(0 : ℚ) ≤ -1 := by
  exact ⟨exBadLabelRun_eval, by decide, by decide, by decide⟩

/-- C3 amended: every record `analyze_tile` returns is either a synthetic
record (damage `un-classified`, confidence 0.0) or carries the damage,
confidence and description of some remote response record verbatim — the
fixed vocabulary and the confidence range are requested in the prompt but
never enforced on the response. -/
theorem c3_amended (ps : List Polygon) (w h k : ℕ)
    (oracle : ℕ → BatchResponse) (out : List ResultRec)
    (hout : analyzeTile ps w h k oracle = some out) :
    ∀ r ∈ out, (r.damage = "un-classified" ∧ r.confidence = 0) ∨
      ∃ i rs, oracle i = BatchResponse.ok rs ∧ ∃ rr ∈ rs,
        r.damage = rr.damage ∧ r.confidence = rr.confidence ∧
        r.description = rr.description := by
  intro r hr
  rcases analyzeTile_eq_some hout with ⟨hps, rfl⟩ | ⟨-, -, -, rfl⟩
  · simp at hr
  · obtain ⟨j, bs, hbs, hrb⟩ := mem_mapIdx_flatten hr
    rcases processBatch_fields hrb with hsyn | ⟨rs, hok, rr, hrr, h1, h2, h3⟩
    · exact Or.inl hsyn
    · exact Or.inr ⟨j, rs, hok, rr, hrr, h1, h2, h3⟩

/-- C3 witness: the amended statement evaluated on the run of the C3
counterexample (both records come from the response verbatim). -/
theorem c3_witness :
    ((⟨"A", "major-damage", 2, "big"⟩ : ResultRec).damage =
        "un-classified" ∧
      (⟨"A", "major-damage", 2, "big"⟩ : ResultRec).confidence = 0) ∨
    ∃ i rs, exBadLabelOracle i = BatchResponse.ok rs ∧ ∃ rr ∈ rs,
      (⟨"A", "major-damage", 2, "big"⟩ : ResultRec).damage = rr.damage ∧
      (⟨"A", "major-damage", 2, "big"⟩ : ResultRec).confidence =
        rr.confidence ∧
      (⟨"A", "major-damage", 2, "big"⟩ : ResultRec).description =
        rr.description :=
  c3_amended exPolys 1024 1024 85 exBadLabelOracle _ exBadLabelRun_eval
    ⟨"A", "major-damage", 2, "big"⟩ (by decide)

/-- C4 counterexample: the claim says a building whose clipped box is
below the minimum size is excluded from classification AND surfaces in
the final result list as an explicit record.  On `exTinyPolys` the tiny
building `T` (box 0×1 px) is filtered out and the final output contains
no record for it at all — it silently vanishes (only a console log
mentions it). -/
theorem c4_counterexample :
    tinyPoly ∈ exTinyPolys ∧
    keepBuilding (buildingOf exTinyPolys 1024 1024 tinyPoly) = false ∧
    analyzeTile exTinyPolys 1024 1024 85 exTinyOracle =
      some [⟨"A", "no-damage", 1, "intact"⟩] ∧
    "T" ∉ ([(⟨"A", "no-damage", 1, "intact"⟩ : ResultRec)].map
      ResultRec.uid) := by
  refine ⟨?_, ?_, exTinyRun_eval, by decide⟩
  · exact List.mem_cons_of_mem _ (List.mem_cons_self _ _)
  · rw [exTinyBuilding_eval]; decide

/-- C4 amended: a polygon whose clipped box fails the minimum-size filter
is excluded from `buildings_with_bbox`, hence from every classification
batch, and (when its uid is not also carried by some surviving building)
its uid is absent from the final result list — the exclusion is only
logged, never surfaced as an output record. -/
theorem c4_amended (ps : List Polygon) (w h k : ℕ)
    (oracle : ℕ → BatchResponse) (p : Polygon) (_hp : p ∈ ps)
    (htiny : keepBuilding (buildingOf ps w h p) = false) :
    buildingOf ps w h p ∉ validBuildings ps w h ∧
    (∀ bs ∈ chunks k (validBuildings ps w h),
      buildingOf ps w h p ∉ bs) ∧
    (∀ out, analyzeTile ps w h k oracle = some out →
      p.uid ∉ (validBuildings ps w h).map Building.uid →
      ∀ r ∈ out, r.uid ≠ p.uid) := by
  have hnv : buildingOf ps w h p ∉ validBuildings ps w h := by
    intro hmem
    have hkeep := List.of_mem_filter hmem
    rw [htiny] at hkeep
    cases hkeep
  refine ⟨hnv, ?_, ?_⟩
  · intro bs hbs hmem
    exact hnv (mem_of_mem_chunks hbs hmem)
  · intro out hout hnu r hr hru
    exact hnu (hru ▸ analyzeTile_uid_mem hout hr)

/-- C4 witness: the amended statement evaluated for the tiny building of
`exTinyPolys`. -/
theorem c4_witness :
    buildingOf exTinyPolys 1024 1024 tinyPoly ∉
      validBuildings exTinyPolys 1024 1024 ∧
    (∀ bs ∈ chunks 85 (validBuildings exTinyPolys 1024 1024),
      buildingOf exTinyPolys 1024 1024 tinyPoly ∉ bs) ∧
    (∀ out, analyzeTile exTinyPolys 1024 1024 85 exTinyOracle = some out →
      tinyPoly.uid ∉ (validBuildings exTinyPolys 1024 1024).map Building.uid →
      ∀ r ∈ out, r.uid ≠ tinyPoly.uid) :=
  c4_amended exTinyPolys 1024 1024 85 exTinyOracle tinyPoly
    (List.mem_cons_of_mem _ (List.mem_cons_self _ _))
    (by rw [exTinyBuilding_eval]; decide)

/-- C5 (code_bug evaluation): with a classifier that raises a rate-limit
error on every attempt, `_call_gemini` makes exactly `retries + 1`
attempts — but then falls off the end of the `for` loop and RETURNS
`None` instead of raising (its docstring promises `Raises: ... If all
retry attempts are exhausted`, and the claim says the failure
propagates).  The caller still degrades the batch to one un-classified
record per building, via the `isinstance(..., list)` check rather than
the `except` arm. -/
theorem c5_rate_limit_exhaustion (retries : ℕ) (bs : List Building) :
    callGemini (fun _ => CallOutcome.rateLimit) retries =
      (CallResult.returnedNone, retries + 1) ∧
    (∀ m, callGemini (fun _ => CallOutcome.rateLimit) retries ≠
      (CallResult.raised m, retries + 1)) ∧
    processBatch bs BatchResponse.notList = bs.map (fun b =>
      ⟨b.uid, "un-classified", 0, "Unexpected API response format"⟩) := by
  have key : ∀ n attempt, attempt + n = retries + 1 →
      callGeminiFrom (fun _ => CallOutcome.rateLimit) retries attempt =
        (CallResult.returnedNone, n) := by
    intro n
    induction n with
    | zero =>
      intro attempt hatt
      unfold callGeminiFrom
      rw [dif_neg (by omega)]
    | succ m ih =>
      intro attempt hatt
      unfold callGeminiFrom
      rw [dif_pos (by omega : attempt < retries + 1)]
      show ((callGeminiFrom _ retries (attempt + 1)).1,
            (callGeminiFrom _ retries (attempt + 1)).2 + 1) =
          (CallResult.returnedNone, m + 1)
      rw [ih (attempt + 1) (by omega)]
  refine ⟨key (retries + 1) 0 (by omega), ?_, rfl⟩
  intro m hm
  unfold callGemini at hm
  rw [key (retries + 1) 0 (by omega)] at hm
  simp at hm

/-- C6 (code_bug evaluation): an input whose polygons all share one
longitude has `lng_range = 0` even after margin expansion; the claim
(and §4.2 of the spec) requires the input to be rejected or guarded by a
minimum-range fallback, but the code divides by the zero range in the
projector — `analyze_tile` crashes with `ZeroDivisionError` (modelled as
`none`). -/
theorem c6_zero_range_crash :
    lngRangeE exZeroRangePolys = 0 ∧
    analyzeTile exZeroRangePolys 1024 1024 85
      (fun _ => BatchResponse.notList) = none :=
  ⟨lngRangeE_exZeroRange, exZeroRangeRun_eval⟩

/-- C7: the projector maps a vertex at the bounds' maximum latitude to
pixel row 0 and a vertex at the minimum latitude (`max_lat - lat_range`)
to row `image_height`; with bounds `lng ∈ [-90.90, -90.86]`,
`lat ∈ [14.46, 14.49]` and a 1024×1024 image, the point
`(-90.88, 14.475)` projects exactly to pixel `(512, 512)`. -/
theorem c7_projection (maxLat latR hImg : ℚ) (hR : 0 < latR) :
    projY maxLat latR hImg maxLat = 0 ∧
    projY maxLat latR hImg (maxLat - latR) = hImg ∧
    projX (-909 / 10) (1 / 25) 1024 (-2272 / 25) = 512 ∧
    projY (1449 / 100) (3 / 100) 1024 (2895 / 200) = 512 := by
  refine ⟨?_, ?_, by norm_num [projX], by norm_num [projY]⟩
  · unfold projY
    rw [sub_self, zero_div, zero_mul]
  · unfold projY
    rw [sub_sub_cancel, div_self (ne_of_gt hR), one_mul]

/-- C7 witness: the projection facts evaluated at the claim's concrete
bounds (`max_lat = 14.49`, `lat_range = 0.03`, image height 1024). -/
theorem c7_witness :
    (0 : ℚ) < 3 / 100 ∧
    (projY (1449 / 100) (3 / 100) 1024 (1449 / 100) = 0 ∧
     projY (1449 / 100) (3 / 100) 1024 (1449 / 100 - 3 / 100) = 1024 ∧
     projX (-909 / 10) (1 / 25) 1024 (-2272 / 25) = 512 ∧
     projY (1449 / 100) (3 / 100) 1024 (2895 / 200) = 512) :=
  ⟨by norm_num, c7_projection (1449 / 100) (3 / 100) 1024 (by norm_num)⟩

/-- C8 counterexample: the claim says a larger margin strictly moves
EVERY fixed vertex's projected coordinates toward the image center.  For
the polygon set `c8Polys` (longitude extent `[0, 2]`) the vertex at
longitude 1 — the extent's midpoint — projects to pixel 512 (the exact
center of a 1024-wide image) under margin 0.1 AND under margin 0.2: its
distance to the center stays 0 and does not strictly decrease. -/
theorem c8_counterexample :
    minLng0 c8Polys = 0 ∧ maxLng0 c8Polys = 2 ∧ (1 : ℚ) ∈ allLngs c8Polys ∧
    rangeAfterMargin 0 2 (1 / 10) < rangeAfterMargin 0 2 (1 / 5) ∧
    pxAfterMargin 0 2 (1 / 10) 1024 1 = 512 ∧
    pxAfterMargin 0 2 (1 / 5) 1024 1 = 512 ∧
    ¬|pxAfterMargin 0 2 (1 / 5) 1024 1 - 1024 / 2| <
        |pxAfterMargin 0 2 (1 / 10) 1024 1 - 1024 / 2| := by
  refine ⟨?_, ?_, ?_, ?_, ?_, ?_, ?_⟩ <;>
    norm_num [minLng0, maxLng0, allLngs, c8Polys, listMin, listMax,
      min_def, max_def, rangeAfterMargin, pxAfterMargin, projX]

/-- C8 amended: increasing the margin strictly increases both expanded
ranges, and moves every fixed vertex's projected coordinates WEAKLY
toward the image center — strictly so unless the vertex sits at the
midpoint of the polygon extent on that axis (such a vertex projects to
the exact image center under every margin and cannot move strictly). -/
theorem c8_amended (minL maxL minLa maxLa m1 m2 w h lng lat : ℚ)
    (hx : minL < maxL) (hy : minLa < maxLa) (hm1 : 0 ≤ m1) (hm : m1 < m2)
    (hw : 0 < w) (hh : 0 < h) :
    rangeAfterMargin minL maxL m1 < rangeAfterMargin minL maxL m2 ∧
    rangeAfterMargin minLa maxLa m1 < rangeAfterMargin minLa maxLa m2 ∧
    |pxAfterMargin minL maxL m2 w lng - w / 2| ≤
      |pxAfterMargin minL maxL m1 w lng - w / 2| ∧
    (lng ≠ (minL + maxL) / 2 →
      |pxAfterMargin minL maxL m2 w lng - w / 2| <
        |pxAfterMargin minL maxL m1 w lng - w / 2|) ∧
    |pyAfterMargin minLa maxLa m2 h lat - h / 2| ≤
      |pyAfterMargin minLa maxLa m1 h lat - h / 2| ∧
    (lat ≠ (minLa + maxLa) / 2 →
      |pyAfterMargin minLa maxLa m2 h lat - h / 2| <
        |pyAfterMargin minLa maxLa m1 h lat - h / 2|) := by
  have hm2 : (0 : ℚ) ≤ m2 := le_of_lt (lt_of_le_of_lt hm1 hm)
  have hRx : (0 : ℚ) < maxL - minL := by linarith
  have hRy : (0 : ℚ) < maxLa - minLa := by linarith
  have hdx1 : (0 : ℚ) < 2 * (maxL - minL) * (1 + 2 * m1) := by nlinarith
  have hdy1 : (0 : ℚ) < 2 * (maxLa - minLa) * (1 + 2 * m1) := by nlinarith
  refine ⟨?_, ?_, ?_, ?_, ?_, ?_⟩
  · rw [rangeAfterMargin_eq, rangeAfterMargin_eq]
    nlinarith
  · rw [rangeAfterMargin_eq, rangeAfterMargin_eq]
    nlinarith
  · rw [pxAfterMargin_sub_half minL maxL m1 w lng hx hm1,
      pxAfterMargin_sub_half minL maxL m2 w lng hx hm2]
    exact abs_div_le_of_le hdx1 (by nlinarith)
  · intro hlng
    rw [pxAfterMargin_sub_half minL maxL m1 w lng hx hm1,
      pxAfterMargin_sub_half minL maxL m2 w lng hx hm2]
    have hN : w * (2 * lng - (minL + maxL)) ≠ 0 :=
      mul_ne_zero (ne_of_gt hw) (fun h0 => hlng (by linarith))
    exact abs_div_lt_of_lt hN hdx1 (by nlinarith)
  · rw [pyAfterMargin_sub_half minLa maxLa m1 h lat hy hm1,
      pyAfterMargin_sub_half minLa maxLa m2 h lat hy hm2]
    exact abs_div_le_of_le hdy1 (by nlinarith)
  · intro hlat
    rw [pyAfterMargin_sub_half minLa maxLa m1 h lat hy hm1,
      pyAfterMargin_sub_half minLa maxLa m2 h lat hy hm2]
    have hN : h * ((minLa + maxLa) - 2 * lat) ≠ 0 :=
      mul_ne_zero (ne_of_gt hh) (fun h0 => hlat (by linarith))
    exact abs_div_lt_of_lt hN hdy1 (by nlinarith)

/-- C8 witness: the amended statement evaluated on extent `[0, 2]` on
both axes, margins 0.1 < 0.2, a 1024×1024 image and the off-center
vertex `(0.5, 1.5)`. -/
theorem c8_witness :
    rangeAfterMargin 0 2 (1 / 10) < rangeAfterMargin 0 2 (1 / 5) ∧
    rangeAfterMargin 0 2 (1 / 10) < rangeAfterMargin 0 2 (1 / 5) ∧
    |pxAfterMargin 0 2 (1 / 5) 1024 (1 / 2) - 1024 / 2| ≤
      |pxAfterMargin 0 2 (1 / 10) 1024 (1 / 2) - 1024 / 2| ∧
    ((1 : ℚ) / 2 ≠ (0 + 2) / 2 →
      |pxAfterMargin 0 2 (1 / 5) 1024 (1 / 2) - 1024 / 2| <
        |pxAfterMargin 0 2 (1 / 10) 1024 (1 / 2) - 1024 / 2|) ∧
    |pyAfterMargin 0 2 (1 / 5) 1024 (3 / 2) - 1024 / 2| ≤
      |pyAfterMargin 0 2 (1 / 10) 1024 (3 / 2) - 1024 / 2| ∧
    ((3 : ℚ) / 2 ≠ (0 + 2) / 2 →
      |pyAfterMargin 0 2 (1 / 5) 1024 (3 / 2) - 1024 / 2| <
        |pyAfterMargin 0 2 (1 / 10) 1024 (3 / 2) - 1024 / 2|) :=
  c8_amended 0 2 0 2 (1 / 10) (1 / 5) 1024 1024 (1 / 2) (3 / 2)
    (by norm_num) (by norm_num) (by norm_num) (by norm_num)
    (by norm_num) (by norm_num)

/-- C9 counterexample: the claim says the progress callback is invoked
AFTER a batch completes classification.  On the one-batch run over
`exPolys` the code's event trace is `[progress(1,1), classify(1)]` — the
callback fires before `classify_batch` is called, not after it
completes. -/
theorem c9_counterexample :
    analyzeTileTrace true exPolys 1024 1024 85 =
      [Event.progress 1 1, Event.classify 1] ∧
    analyzeTileTrace true exPolys 1024 1024 85 ≠
      [Event.classify 1, Event.progress 1 1] := by
  refine ⟨exTrace_eval, ?_⟩
  rw [exTrace_eval]
  decide

/-- C9 amended: when a callback is provided it is invoked with
`(batch_num, total_batches)` immediately BEFORE each batch's
classification call (the pair `[progress(i, total), classify(i)]` is a
contiguous infix of the trace for every batch `i`), and the callback has
no influence on the returned results. -/
theorem c9_amended (ps : List Polygon) (w h k : ℕ)
    (oracle : ℕ → BatchResponse) (out : List ResultRec)
    (hout : analyzeTile ps w h k oracle = some out)
    (j : ℕ) (hj : j < totalBatches (validBuildings ps w h).length k) :
    (analyzeTileWithProgress true ps w h k oracle).1 =
      (analyzeTileWithProgress false ps w h k oracle).1 ∧
    batchEvents true (totalBatches (validBuildings ps w h).length k)
        (j + 1) =
      [Event.progress (j + 1)
        (totalBatches (validBuildings ps w h).length k),
       Event.classify (j + 1)] ∧
    batchEvents true (totalBatches (validBuildings ps w h).length k)
        (j + 1) <:+: analyzeTileTrace true ps w h k := by
  refine ⟨rfl, rfl, ?_⟩
  rcases analyzeTile_eq_some hout with ⟨hps, -⟩ | ⟨hne, hrng, hk, -⟩
  · subst hps
    simp only [validBuildings, List.map_nil, List.filter_nil,
      List.length_nil] at hj
    cases k with
    | zero => norm_num [totalBatches] at hj
    | succ k' =>
      have h0 : totalBatches 0 (k' + 1) = 0 := by
        unfold totalBatches
        apply Nat.div_eq_of_lt
        omega
      rw [h0] at hj
      omega
  · unfold analyzeTileTrace
    rw [if_neg hne, if_neg hrng, if_neg hk]
    exact List.infix_of_mem_flatten
      (List.mem_map_of_mem _ (List.mem_range.mpr hj))

/-- C9 witness: the amended statement evaluated on the one-batch run
over `exPolys` for its batch 1. -/
theorem c9_witness :
    (analyzeTileWithProgress true exPolys 1024 1024 85 exAliasOracle).1 =
      (analyzeTileWithProgress false exPolys 1024 1024 85 exAliasOracle).1 ∧
    batchEvents true
        (totalBatches (validBuildings exPolys 1024 1024).length 85)
        (0 + 1) =
      [Event.progress (0 + 1)
        (totalBatches (validBuildings exPolys 1024 1024).length 85),
       Event.classify (0 + 1)] ∧
    batchEvents true
        (totalBatches (validBuildings exPolys 1024 1024).length 85)
        (0 + 1) <:+: analyzeTileTrace true exPolys 1024 1024 85 :=
  c9_amended exPolys 1024 1024 85 exAliasOracle _ exAliasRun_eval 0
    (by rw [exBatch_eval]; decide)

/-- C10: every uid in the list returned by `analyze_tile` is the
identifier of some input building that passed the pixel-box filter: the
reconciler overwrites the uid field of every consumed response record
with a batch building's identifier and synthesizes the rest, so
identifiers invented by the remote model never reach the output. -/
theorem c10_uid_provenance (ps : List Polygon) (w h k : ℕ)
    (oracle : ℕ → BatchResponse) (out : List ResultRec)
    (hout : analyzeTile ps w h k oracle = some out) :
    ∀ r ∈ out, r.uid ∈ (validBuildings ps w h).map Building.uid :=
  fun _ hr => analyzeTile_uid_mem hout hr

/-- C10 witness: the provenance property evaluated on the aliasing run
over `exPolys` (whose response even contains the invented uid `"X"`,
which does not survive to the output). -/
theorem c10_witness :
    (⟨"B", "destroyed", 1, "rubble"⟩ : ResultRec).uid ∈
      (validBuildings exPolys 1024 1024).map Building.uid :=
  c10_uid_provenance exPolys 1024 1024 85 exAliasOracle _ exAliasRun_eval
    ⟨"B", "destroyed", 1, "rubble"⟩ (by decide)

end DDA
